import Mathlib

/-!
Shallow embedding of the NPC day simulator (run.py): the data model
(NPCState, Action, Place), the static world/action catalogue WORLD, the
survival-rule gate hybrid_decision, the effect engine apply_action, the
per-hour metabolism step, the hour-0 worked-hours reset, the random
fallback construction and the end-of-day action-diversity statistic,
together with theorems checking the written specification against them.
-/

namespace NPCSim

/-- Resource fields addressable by an effect map.  The effect
dictionaries in WORLD (run.py lines 33-62) only ever name the keys
money, food and rest, so at apply time getattr/setattr touch exactly
these three fields. -/
inductive Stat : Type
  | money
  | food
  | rest
deriving DecidableEq, Repr

/-- NPC state, mirroring class NPCState (run.py lines 8-18).  Python
ints are modelled as Int; the action history is the list of appended
history tokens. -/
structure NPCState : Type where
  id : String
  name : String
  money : Int
  food : Int
  rest : Int
  location : String
  current_hour : Int
  daily_hours_worked : Int
  action_history : List String
  personality : String
deriving DecidableEq, Repr

/-- A proposed or forced action, mirroring class Action (run.py lines
20-26).  The float confidence is modelled as a rational: the program
only ever stores and compares the literals 1.0 and 0.5, which are exact
in both representations. -/
structure Action : Type where
  npc_id : String
  action : String
  place : String
  duration : Int
  reason : String
  confidence : ℚ
deriving DecidableEq, Repr

/-- One catalogue entry of a place: name, effect map (association list
of stat deltas, in the insertion order of the Python dict) and
duration. -/
structure ActionDef : Type where
  name : String
  effects : List (Stat × Int)
  duration : Int
deriving DecidableEq, Repr

/-- A place, mirroring class Place (run.py lines 28-30). -/
structure Place : Type where
  name : String
  actions : List ActionDef
deriving DecidableEq, Repr

/-- Food Store catalogue entry "eating" (run.py line 37). -/
def eatingDef : ActionDef :=
  { name := "eating", effects := [(Stat.food, 100), (Stat.money, -60)], duration := 1 }

/-- Food Store catalogue entry "parttime" (run.py line 38). -/
def parttimeDef : ActionDef :=
  { name := "parttime", effects := [(Stat.money, 20), (Stat.food, -5), (Stat.rest, -5)],
    duration := 1 }

/-- Food Store catalogue entry "shopping" (run.py line 39). -/
def shoppingDef : ActionDef :=
  { name := "shopping", effects := [(Stat.money, -5)], duration := 1 }

/-- Wooden Factory catalogue entry "fulltime" (run.py line 45). -/
def fulltimeDef : ActionDef :=
  { name := "fulltime", effects := [(Stat.money, 20), (Stat.food, -5), (Stat.rest, -5)],
    duration := 1 }

/-- Wooden Factory catalogue entry "chat" (run.py line 46). -/
def chatDef : ActionDef :=
  { name := "chat", effects := [(Stat.rest, 5)], duration := 1 }

/-- Home catalogue entry "sleep" (run.py line 52). -/
def sleepDef : ActionDef :=
  { name := "sleep", effects := [(Stat.rest, 40)], duration := 1 }

/-- Home catalogue entry "relax" (run.py line 53). -/
def relaxDef : ActionDef :=
  { name := "relax", effects := [(Stat.rest, 15)], duration := 1 }

/-- Park catalogue entry "walk" (run.py line 59); the Python literal -0
for the rest delta equals 0. -/
def walkDef : ActionDef :=
  { name := "walk", effects := [(Stat.rest, 0), (Stat.food, -5)], duration := 1 }

/-- The Food Store place (run.py lines 34-41). -/
def food_store : Place :=
  { name := "Food Store", actions := [eatingDef, parttimeDef, shoppingDef] }

/-- The Wooden Factory place (run.py lines 42-48). -/
def wooden_factory : Place :=
  { name := "Wooden Factory", actions := [fulltimeDef, chatDef] }

/-- The Home place (run.py lines 49-55). -/
def home : Place :=
  { name := "Home", actions := [sleepDef, relaxDef] }

/-- The Park place (run.py lines 56-61). -/
def park : Place :=
  { name := "Park", actions := [walkDef] }

/-- The static world table WORLD (run.py lines 33-62), an association
list from place key to Place, in the insertion order of the Python
dict. -/
def WORLD : List (String × Place) :=
  [("food_store", food_store), ("wooden_factory", wooden_factory),
   ("home", home), ("park", park)]

/-- The forced eating action built by the first hard rule (run.py
lines 90-93). -/
def forcedEating (npc : NPCState) : Action :=
  { npc_id := npc.id, action := "eating", place := "Food Store", duration := 1,
    reason := "🚨 Survival baseline: food=" ++ toString npc.food ++
              " < 15, forced eating",
    confidence := 1 }

/-- The forced sleep action built by the second hard rule (run.py
lines 96-99). -/
def forcedSleep (npc : NPCState) : Action :=
  { npc_id := npc.id, action := "sleep", place := "Home", duration := 1,
    reason := "🚨 Survival baseline: rest=" ++ toString npc.rest ++
              " < 20, forced sleep",
    confidence := 1 }

/-- The forced parttime action built by the third hard rule (run.py
lines 102-105). -/
def forcedParttime (npc : NPCState) : Action :=
  { npc_id := npc.id, action := "parttime", place := "Food Store", duration := 1,
    reason := "🚨 Bankruptcy protection: money=" ++ toString npc.money ++
              " < 5, emergency work",
    confidence := 1 }

/-- The hybrid decision gate (run.py lines 85-108): check the three
hard rules in order and return the first forced action, else none to
delegate to the AI. -/
def hybrid_decision (npc : NPCState) : Option Action :=
  if npc.food < 15 then
    some { npc_id := npc.id, action := "eating", place := "Food Store", duration := 1,
           reason := "🚨 Survival baseline: food=" ++ toString npc.food ++
                     " < 15, forced eating",
           confidence := 1 }
  else if npc.rest < 20 then
    some { npc_id := npc.id, action := "sleep", place := "Home", duration := 1,
           reason := "🚨 Survival baseline: rest=" ++ toString npc.rest ++
                     " < 20, forced sleep",
           confidence := 1 }
  else if npc.money < 5 then
    some { npc_id := npc.id, action := "parttime", place := "Food Store", duration := 1,
           reason := "🚨 Bankruptcy protection: money=" ++ toString npc.money ++
                     " < 5, emergency work",
           confidence := 1 }
  else
    none

/-- Python substring membership: strContains hay needle holds when
needle occurs contiguously inside hay (needle in hay). -/
def strContains (hay needle : String) : Bool :=
  decide (needle.data <:+: hay.data)

/-- The catalogue-matching test of apply_action (run.py line 182):
the catalogue name equals the proposed name, or the catalogue name
occurs as a substring inside the proposed name. -/
def matchesProposal (catName proposal : String) : Bool :=
  catName == proposal || strContains proposal catName

/-- Place-key normalization (run.py line 173): lower-case the place
name and replace every space by an underscore. -/
def normalizeKey (place : String) : String :=
  String.mk (place.data.map (fun c =>
    if Char.toLower c = ' ' then '_' else Char.toLower c))

/-- Dictionary lookup WORLD.get(place_key) (run.py line 174). -/
def worldFind (key : String) : Option Place :=
  (WORLD.find? (fun kv => kv.1 == key)).map (fun kv => kv.2)

/-- The first catalogue entry of a place matching the proposed name
(run.py lines 180-184). -/
def findPlaceAction (acts : List ActionDef) (proposal : String) : Option ActionDef :=
  acts.find? (fun act => matchesProposal act.name proposal)

/-- The in-range clamp applied to every mutated stat (run.py line
193). -/
def clamp (x : Int) : Int :=
  max 0 (min 200 x)

/-- getattr(npc, stat) for the three resource fields. -/
def getStat (n : NPCState) : Stat → Int
  | Stat.money => n.money
  | Stat.food => n.food
  | Stat.rest => n.rest

/-- setattr(npc, stat, v) for the three resource fields. -/
def setStat (n : NPCState) : Stat → Int → NPCState
  | Stat.money, v => { n with money := v }
  | Stat.food, v => { n with food := v }
  | Stat.rest, v => { n with rest := v }

/-- The effect loop of apply_action (run.py lines 191-194): fold over
the effect map, clamping each updated stat into [0, 200]. -/
def applyEffects (n : NPCState) (effs : List (Stat × Int)) : NPCState :=
  effs.foldl (fun acc p => setStat acc p.1 (clamp (getStat acc p.1 + p.2))) n

/-- The history token appended after an action executes (run.py line
202). -/
def histToken (hour : Int) (actName : String) : String :=
  "H" ++ toString hour ++ ":" ++ actName

/-- The tail of apply_action once a catalogue entry matched (run.py
lines 191-205): apply the effects, set the location, count work hours
for fulltime/parttime, append the history token. -/
def applyMatched (npc : NPCState) (action : Action) (place_action : ActionDef) : NPCState :=
  let n1 := applyEffects npc place_action.effects
  let n2 := { n1 with location := action.place }
  let n3 :=
    if place_action.name ∈ (["fulltime", "parttime"] : List String) then
      { n2 with daily_hours_worked := n2.daily_hours_worked + place_action.duration }
    else n2
  { n3 with action_history :=
      n3.action_history ++ [histToken n3.current_hour place_action.name] }

/-- apply_action (run.py lines 171-205): resolve the place, find a
matching catalogue entry, and either mutate the state or return it
unchanged. -/
def apply_action (npc : NPCState) (action : Action) : NPCState :=
  match worldFind (normalizeKey action.place) with
  | none => npc
  | some place =>
    match findPlaceAction place.actions action.action with
    | none => npc
    | some place_action => applyMatched npc action place_action

/-- The resolved catalogue entry of a proposed action, combining the
place lookup and the catalogue search of apply_action. -/
def matchedAction (action : Action) : Option ActionDef :=
  (worldFind (normalizeKey action.place)).bind
    (fun pl => findPlaceAction pl.actions action.action)

/-- The hourly metabolism step (run.py lines 221-224): food and rest
each drop by 5, floored at 0. -/
def metabolism (npc : NPCState) : NPCState :=
  { npc with food := max 0 (npc.food - 5), rest := max 0 (npc.rest - 5) }

/-- The start-of-hour bookkeeping of simulate_day (run.py lines
215-217): at hour 0 the worked-hours counter is reset to 0. -/
def hourStart (hour : Int) (npc : NPCState) : NPCState :=
  if hour = 0 then { npc with daily_hours_worked := 0 } else npc

/-- The fixed fallback pool (run.py line 258). -/
def fallback_actions : List String :=
  ["sleep", "eating", "relax", "walk"]

/-- The fallback Action built from the randomly drawn name when the AI
call fails (run.py lines 260-264). -/
def fallbackAction (npc : NPCState) (random_action : String) : Action :=
  { npc_id := npc.id, action := random_action,
    place := if random_action ∈ (["sleep", "relax"] : List String) then "Home" else "Park",
    duration := 1, reason := "Random choice", confidence := 1/2 }

/-- The end-of-day diversity statistic (run.py line 278):
len(set(history)) / max(1, len(history)) over the history-token
list. -/
def diversity (history : List String) : ℚ :=
  (history.dedup.length : ℚ) / ((max 1 history.length : ℕ) : ℚ)

/-- The action name carried by a history token: the part after the
first colon of a token H(hour):(name). -/
def tokenActionName (token : String) : String :=
  String.mk ((token.data.dropWhile (fun c => c != ':')).drop 1)

/-- Follows the spec's words, for comparison with matchesProposal: a
catalogue entry matches when its name equals the proposed name or the
proposed name occurs as a substring inside the catalogue name. -/
def specMatchPolicy (catName proposal : String) : Bool :=
  catName == proposal || strContains catName proposal

/-- Follows the spec's words, for comparison with diversity: the number
of distinct action names divided by the total number of actions
taken. -/
def specDiversity (history : List String) : ℚ :=
  (((history.map tokenActionName).dedup.length : ℕ) : ℚ) / ((history.length : ℕ) : ℚ)

/-- The four fallback names, used to build a day history exercising
exactly four distinct action names. -/
def fourNames : List String :=
  ["sleep", "eating", "relax", "walk"]

/-- A 24-token day history as simulate_day produces it: one token per
hour 0..23, cycling through four distinct action names. -/
def hist24 : List String :=
  (List.range 24).map (fun i => histToken (Int.ofNat i) (fourNames.getD (i % 4) ""))

/-- A concrete NPC fixture with the given resources, matching the
hardcoded scenario shape of run.py lines 284-288. -/
def mkNpc (money food rest : Int) : NPCState :=
  { id := "npc1", name := "Max", money := money, food := food, rest := rest,
    location := "Home", current_hour := 0, daily_hours_worked := 0,
    action_history := [], personality := "balanced" }

/-- A proposed action literally named "eat" at the Food Store. -/
def eatProposal : Action :=
  { npc_id := "npc1", action := "eat", place := "Food Store", duration := 1,
    reason := "test", confidence := 1/2 }

/-- A proposed action targeting a place absent from the world table. -/
def nowhereProposal : Action :=
  { npc_id := "npc1", action := "sleep", place := "Atlantis", duration := 1,
    reason := "test", confidence := 1/2 }

/-- A proposed sleep at Home, as the rule gate emits it. -/
def sleepProposal : Action :=
  { npc_id := "npc1", action := "sleep", place := "Home", duration := 1,
    reason := "test", confidence := 1 }

/-- A proposed parttime at the Food Store, as the rule gate emits it. -/
def parttimeProposal : Action :=
  { npc_id := "npc1", action := "parttime", place := "Food Store", duration := 1,
    reason := "test", confidence := 1 }

/-- A proposed eating at the Food Store, as the rule gate emits it. -/
def eatingProposal : Action :=
  { npc_id := "npc1", action := "eating", place := "Food Store", duration := 1,
    reason := "test", confidence := 1 }

theorem clamp_nonneg (x : Int) : 0 ≤ clamp x :=
  le_max_left 0 _

theorem clamp_le_two_hundred (x : Int) : clamp x ≤ 200 :=
  max_le (by norm_num) (min_le_left 200 x)

theorem getStat_setStat_same (n : NPCState) (s : Stat) (v : Int) :
    getStat (setStat n s v) s = v := by
  cases s <;> rfl

theorem getStat_setStat_ne (n : NPCState) (s t : Stat) (v : Int) (h : s ≠ t) :
    getStat (setStat n s v) t = getStat n t := by
  cases s <;> cases t <;> first | exact absurd rfl h | rfl

theorem setStat_frame (n : NPCState) (s : Stat) (v : Int) :
    (setStat n s v).id = n.id ∧ (setStat n s v).name = n.name ∧
    (setStat n s v).personality = n.personality ∧
    (setStat n s v).current_hour = n.current_hour ∧
    (setStat n s v).location = n.location ∧
    (setStat n s v).daily_hours_worked = n.daily_hours_worked ∧
    (setStat n s v).action_history = n.action_history := by
  cases s <;> exact ⟨rfl, rfl, rfl, rfl, rfl, rfl, rfl⟩

theorem applyEffects_nil (n : NPCState) : applyEffects n [] = n :=
  rfl

theorem applyEffects_cons (n : NPCState) (e : Stat × Int) (es : List (Stat × Int)) :
    applyEffects n (e :: es) =
      applyEffects (setStat n e.1 (clamp (getStat n e.1 + e.2))) es :=
  rfl

theorem applyEffects_frame (effs : List (Stat × Int)) (n : NPCState) :
    (applyEffects n effs).id = n.id ∧ (applyEffects n effs).name = n.name ∧
    (applyEffects n effs).personality = n.personality ∧
    (applyEffects n effs).current_hour = n.current_hour ∧
    (applyEffects n effs).location = n.location ∧
    (applyEffects n effs).daily_hours_worked = n.daily_hours_worked ∧
    (applyEffects n effs).action_history = n.action_history := by
  induction effs generalizing n with
  | nil => exact ⟨rfl, rfl, rfl, rfl, rfl, rfl, rfl⟩
  | cons e es ih =>
    rw [applyEffects_cons]
    obtain ⟨a1, a2, a3, a4, a5, a6, a7⟩ :=
      ih (setStat n e.1 (clamp (getStat n e.1 + e.2)))
    obtain ⟨b1, b2, b3, b4, b5, b6, b7⟩ :=
      setStat_frame n e.1 (clamp (getStat n e.1 + e.2))
    exact ⟨a1.trans b1, a2.trans b2, a3.trans b3, a4.trans b4, a5.trans b5,
           a6.trans b6, a7.trans b7⟩

theorem applyEffects_inRange (effs : List (Stat × Int)) (n : NPCState)
    (h : ∀ s : Stat, 0 ≤ getStat n s ∧ getStat n s ≤ 200) :
    ∀ s : Stat, 0 ≤ getStat (applyEffects n effs) s ∧
      getStat (applyEffects n effs) s ≤ 200 := by
  induction effs generalizing n with
  | nil => exact h
  | cons e es ih =>
    rw [applyEffects_cons]
    apply ih
    intro s
    by_cases hs : e.1 = s
    · subst hs
      rw [getStat_setStat_same]
      exact ⟨clamp_nonneg _, clamp_le_two_hundred _⟩
    · rw [getStat_setStat_ne _ _ _ _ hs]
      exact h s

theorem getStat_applyEffects_not_mem (effs : List (Stat × Int)) (n : NPCState)
    (s : Stat) (h : ∀ p ∈ effs, p.1 ≠ s) :
    getStat (applyEffects n effs) s = getStat n s := by
  induction effs generalizing n with
  | nil => rfl
  | cons e es ih =>
    rw [applyEffects_cons,
        ih _ (fun p hp => h p (List.mem_cons_of_mem _ hp)),
        getStat_setStat_ne _ _ _ _ (h e (List.mem_cons_self _ _))]

theorem applyMatched_money (npc : NPCState) (a : Action) (pa : ActionDef) :
    (applyMatched npc a pa).money = (applyEffects npc pa.effects).money := by
  simp only [applyMatched]
  split <;> rfl

theorem applyMatched_food (npc : NPCState) (a : Action) (pa : ActionDef) :
    (applyMatched npc a pa).food = (applyEffects npc pa.effects).food := by
  simp only [applyMatched]
  split <;> rfl

theorem applyMatched_rest (npc : NPCState) (a : Action) (pa : ActionDef) :
    (applyMatched npc a pa).rest = (applyEffects npc pa.effects).rest := by
  simp only [applyMatched]
  split <;> rfl

theorem applyMatched_id (npc : NPCState) (a : Action) (pa : ActionDef) :
    (applyMatched npc a pa).id = npc.id := by
  have h := (applyEffects_frame pa.effects npc).1
  simp only [applyMatched]
  split <;> exact h

theorem applyMatched_nm (npc : NPCState) (a : Action) (pa : ActionDef) :
    (applyMatched npc a pa).name = npc.name := by
  have h := (applyEffects_frame pa.effects npc).2.1
  simp only [applyMatched]
  split <;> exact h

theorem applyMatched_personality (npc : NPCState) (a : Action) (pa : ActionDef) :
    (applyMatched npc a pa).personality = npc.personality := by
  have h := (applyEffects_frame pa.effects npc).2.2.1
  simp only [applyMatched]
  split <;> exact h

theorem applyMatched_hour (npc : NPCState) (a : Action) (pa : ActionDef) :
    (applyMatched npc a pa).current_hour = npc.current_hour := by
  have h := (applyEffects_frame pa.effects npc).2.2.2.1
  simp only [applyMatched]
  split <;> exact h

theorem applyMatched_location (npc : NPCState) (a : Action) (pa : ActionDef) :
    (applyMatched npc a pa).location = a.place := by
  simp only [applyMatched]
  split <;> rfl

theorem applyMatched_history (npc : NPCState) (a : Action) (pa : ActionDef) :
    (applyMatched npc a pa).action_history =
      npc.action_history ++ [histToken npc.current_hour pa.name] := by
  obtain ⟨f1, f2, f3, f4, f5, f6, f7⟩ := applyEffects_frame pa.effects npc
  simp only [applyMatched]
  split <;> simp [f4, f7]

theorem applyMatched_worked (npc : NPCState) (a : Action) (pa : ActionDef) :
    (applyMatched npc a pa).daily_hours_worked =
      (if pa.name ∈ (["fulltime", "parttime"] : List String) then
        npc.daily_hours_worked + pa.duration else npc.daily_hours_worked) := by
  obtain ⟨f1, f2, f3, f4, f5, f6, f7⟩ := applyEffects_frame pa.effects npc
  simp only [applyMatched]
  split <;> rename_i hcond <;> simp [hcond, f6]

theorem apply_action_eq (npc : NPCState) (a : Action) :
    apply_action npc a =
      match matchedAction a with
      | none => npc
      | some pa => applyMatched npc a pa := by
  unfold apply_action matchedAction
  cases hw : worldFind (normalizeKey a.place) with
  | none => rfl
  | some pl => cases hf : findPlaceAction pl.actions a.action <;> rfl

theorem apply_action_none (npc : NPCState) (a : Action)
    (h : matchedAction a = none) : apply_action npc a = npc := by
  rw [apply_action_eq, h]

theorem apply_action_some (npc : NPCState) (a : Action) (pa : ActionDef)
    (h : matchedAction a = some pa) : apply_action npc a = applyMatched npc a pa := by
  rw [apply_action_eq, h]

/-- Claim C1: hybrid_decision evaluates the three thresholds in strict
priority order — food < 15 forces eating at Food Store, otherwise
rest < 20 forces sleep at Home, otherwise money < 5 forces parttime at
Food Store, each forced action with confidence 1.0 and duration 1; if
all three thresholds pass it returns none, delegating to free
choice. -/
theorem hybrid_decision_threshold_priority (npc : NPCState) :
    (npc.food < 15 → ∃ a, hybrid_decision npc = some a ∧ a.action = "eating" ∧
      a.place = "Food Store" ∧ a.confidence = 1 ∧ a.duration = 1)
  ∧ (15 ≤ npc.food → npc.rest < 20 → ∃ a, hybrid_decision npc = some a ∧
      a.action = "sleep" ∧ a.place = "Home" ∧ a.confidence = 1 ∧ a.duration = 1)
  ∧ (15 ≤ npc.food → 20 ≤ npc.rest → npc.money < 5 → ∃ a,
      hybrid_decision npc = some a ∧ a.action = "parttime" ∧
      a.place = "Food Store" ∧ a.confidence = 1 ∧ a.duration = 1)
  ∧ (15 ≤ npc.food → 20 ≤ npc.rest → 5 ≤ npc.money →
      hybrid_decision npc = none) := by
  refine ⟨?_, ?_, ?_, ?_⟩
  · intro h
    refine ⟨forcedEating npc, ?_, rfl, rfl, rfl, rfl⟩
    unfold hybrid_decision
    rw [if_pos h]
    rfl
  · intro h1 h2
    refine ⟨forcedSleep npc, ?_, rfl, rfl, rfl, rfl⟩
    unfold hybrid_decision
    rw [if_neg (by omega), if_pos h2]
    rfl
  · intro h1 h2 h3
    refine ⟨forcedParttime npc, ?_, rfl, rfl, rfl, rfl⟩
    unfold hybrid_decision
    rw [if_neg (by omega), if_neg (by omega), if_pos h3]
    rfl
  · intro h1 h2 h3
    unfold hybrid_decision
    rw [if_neg (by omega), if_neg (by omega), if_neg (by omega)]

/-- Witness for C1 at concrete inputs: food 10 forces eating; a fully
safe NPC gets none. -/
theorem hybrid_decision_threshold_priority_check :
    (∃ a, hybrid_decision (mkNpc 50 10 50) = some a ∧ a.action = "eating" ∧
      a.place = "Food Store" ∧ a.confidence = 1 ∧ a.duration = 1)
  ∧ hybrid_decision (mkNpc 50 50 50) = none :=
  ⟨(hybrid_decision_threshold_priority (mkNpc 50 10 50)).1 (by decide),
   (hybrid_decision_threshold_priority (mkNpc 50 50 50)).2.2.2
     (by decide) (by decide) (by decide)⟩

/-- Claim C2: if money, food and rest are each in [0, 200] then they
still are after apply_action, and the clamp applied to every mutated
field (money included) bounds every value into [0, 200]. -/
theorem apply_action_resources_in_range (npc : NPCState) (a : Action)
    (hmoney : 0 ≤ npc.money ∧ npc.money ≤ 200)
    (hfood : 0 ≤ npc.food ∧ npc.food ≤ 200)
    (hrest : 0 ≤ npc.rest ∧ npc.rest ≤ 200) :
    (0 ≤ (apply_action npc a).money ∧ (apply_action npc a).money ≤ 200)
  ∧ (0 ≤ (apply_action npc a).food ∧ (apply_action npc a).food ≤ 200)
  ∧ (0 ≤ (apply_action npc a).rest ∧ (apply_action npc a).rest ≤ 200)
  ∧ (∀ x : Int, 0 ≤ clamp x ∧ clamp x ≤ 200) := by
  have hall : ∀ s : Stat, 0 ≤ getStat npc s ∧ getStat npc s ≤ 200 := by
    intro s
    cases s
    · exact hmoney
    · exact hfood
    · exact hrest
  have key : ∀ s : Stat, 0 ≤ getStat (apply_action npc a) s ∧
      getStat (apply_action npc a) s ≤ 200 := by
    rw [apply_action_eq]
    cases hm : matchedAction a with
    | none => exact hall
    | some pa =>
      intro s
      have hs : getStat (applyMatched npc a pa) s = getStat (applyEffects npc pa.effects) s := by
        cases s
        · exact applyMatched_money npc a pa
        · exact applyMatched_food npc a pa
        · exact applyMatched_rest npc a pa
      rw [hs]
      exact applyEffects_inRange pa.effects npc hall s
  exact ⟨key Stat.money, key Stat.food, key Stat.rest,
         fun x => ⟨clamp_nonneg x, clamp_le_two_hundred x⟩⟩

/-- Witness for C2: the forced eating at the Food Store from money 50,
food 10, rest 50 keeps every resource inside [0, 200] (the money floor
clamps 50 - 60 up to 0). -/
theorem apply_action_resources_in_range_check :
    (0 ≤ (apply_action (mkNpc 50 10 50) eatingProposal).money ∧
      (apply_action (mkNpc 50 10 50) eatingProposal).money ≤ 200)
  ∧ (0 ≤ (apply_action (mkNpc 50 10 50) eatingProposal).food ∧
      (apply_action (mkNpc 50 10 50) eatingProposal).food ≤ 200)
  ∧ (0 ≤ (apply_action (mkNpc 50 10 50) eatingProposal).rest ∧
      (apply_action (mkNpc 50 10 50) eatingProposal).rest ≤ 200)
  ∧ (∀ x : Int, 0 ≤ clamp x ∧ clamp x ≤ 200) :=
  apply_action_resources_in_range (mkNpc 50 10 50) eatingProposal
    (by decide) (by decide) (by decide)

/-- Claim C4: an action whose place key is not in the world table, or
whose name matches no catalogue entry at the resolved place, leaves the
NPC entirely unchanged — resources, location, worked hours and history
included. -/
theorem apply_action_failure_no_change (npc : NPCState) (a : Action)
    (h : worldFind (normalizeKey a.place) = none ∨
      ∃ pl : Place, worldFind (normalizeKey a.place) = some pl ∧
        findPlaceAction pl.actions a.action = none) :
    apply_action npc a = npc
  ∧ (apply_action npc a).money = npc.money
  ∧ (apply_action npc a).food = npc.food
  ∧ (apply_action npc a).rest = npc.rest
  ∧ (apply_action npc a).location = npc.location
  ∧ (apply_action npc a).daily_hours_worked = npc.daily_hours_worked
  ∧ (apply_action npc a).action_history = npc.action_history := by
  have hm : matchedAction a = none := by
    unfold matchedAction
    rcases h with h | ⟨pl, h1, h2⟩
    · rw [h]
      rfl
    · rw [h1]
      simpa using h2
  have he : apply_action npc a = npc := apply_action_none npc a hm
  rw [he]
  exact ⟨rfl, rfl, rfl, rfl, rfl, rfl, rfl⟩

/-- Witness for C4 at a concrete unknown place (Atlantis). -/
theorem apply_action_failure_no_change_check :
    apply_action (mkNpc 50 50 50) nowhereProposal = mkNpc 50 50 50
  ∧ (apply_action (mkNpc 50 50 50) nowhereProposal).money = (mkNpc 50 50 50).money
  ∧ (apply_action (mkNpc 50 50 50) nowhereProposal).food = (mkNpc 50 50 50).food
  ∧ (apply_action (mkNpc 50 50 50) nowhereProposal).rest = (mkNpc 50 50 50).rest
  ∧ (apply_action (mkNpc 50 50 50) nowhereProposal).location = (mkNpc 50 50 50).location
  ∧ (apply_action (mkNpc 50 50 50) nowhereProposal).daily_hours_worked =
      (mkNpc 50 50 50).daily_hours_worked
  ∧ (apply_action (mkNpc 50 50 50) nowhereProposal).action_history =
      (mkNpc 50 50 50).action_history :=
  apply_action_failure_no_change (mkNpc 50 50 50) nowhereProposal (Or.inl (by decide))

/-- Claim C6: the metabolism step drops food and rest by 5, each
floored at 0, so both are nonnegative afterwards; money is not
changed. -/
theorem metabolism_decay (npc : NPCState) :
    (metabolism npc).food = max 0 (npc.food - 5)
  ∧ (metabolism npc).rest = max 0 (npc.rest - 5)
  ∧ 0 ≤ (metabolism npc).food
  ∧ 0 ≤ (metabolism npc).rest
  ∧ (metabolism npc).money = npc.money :=
  ⟨rfl, rfl, le_max_left 0 _, le_max_left 0 _, rfl⟩

/-- Claim C7: the worked-hours counter is zeroed at hour 0 of the day
and untouched at other hours; apply_action adds the matched catalogue
action's duration exactly when that action is named fulltime or
parttime, and leaves the counter unchanged otherwise (including when
nothing matches). -/
theorem worked_hours_reset_and_increment (hour : Int) (npc : NPCState)
    (a : Action) (pa : ActionDef) :
    (hourStart 0 npc).daily_hours_worked = 0
  ∧ (hour ≠ 0 → hourStart hour npc = npc)
  ∧ (matchedAction a = none →
      (apply_action npc a).daily_hours_worked = npc.daily_hours_worked)
  ∧ (matchedAction a = some pa →
      pa.name ∈ (["fulltime", "parttime"] : List String) →
      (apply_action npc a).daily_hours_worked = npc.daily_hours_worked + pa.duration)
  ∧ (matchedAction a = some pa →
      pa.name ∉ (["fulltime", "parttime"] : List String) →
      (apply_action npc a).daily_hours_worked = npc.daily_hours_worked) := by
  refine ⟨?_, ?_, ?_, ?_, ?_⟩
  · simp [hourStart]
  · intro h
    simp [hourStart, h]
  · intro h
    rw [apply_action_none npc a h]
  · intro h hw
    rw [apply_action_some npc a pa h, applyMatched_worked, if_pos hw]
  · intro h hw
    rw [apply_action_some npc a pa h, applyMatched_worked, if_neg hw]

/-- Witness for C7: the hour-0 reset zeroes the counter, a matched
parttime adds its duration, and a matched sleep leaves the counter
unchanged. -/
theorem worked_hours_reset_and_increment_check :
    (hourStart 0 (mkNpc 50 50 50)).daily_hours_worked = 0
  ∧ (apply_action (mkNpc 50 50 50) parttimeProposal).daily_hours_worked =
      (mkNpc 50 50 50).daily_hours_worked + parttimeDef.duration
  ∧ (apply_action (mkNpc 50 50 50) sleepProposal).daily_hours_worked =
      (mkNpc 50 50 50).daily_hours_worked :=
  ⟨(worked_hours_reset_and_increment 3 (mkNpc 50 50 50) parttimeProposal parttimeDef).1,
   (worked_hours_reset_and_increment 3 (mkNpc 50 50 50) parttimeProposal parttimeDef).2.2.2.1
     (by decide) (by decide),
   (worked_hours_reset_and_increment 3 (mkNpc 50 50 50) sleepProposal sleepDef).2.2.2.2
     (by decide) (by decide)⟩

/-- Counterexample to C3: the spec's matching direction (the proposed
name occurring inside the catalogue name, so that a proposed "eat"
would match the catalogue entry "eating") accepts the pair, but the
code's test rejects it: at the Food Store a proposed "eat" matches no
catalogue entry and the NPC is left unchanged instead of eating. -/
theorem match_direction_counterexample :
    specMatchPolicy "eating" "eat" = true
  ∧ matchesProposal "eating" "eat" = false
  ∧ findPlaceAction food_store.actions "eat" = none
  ∧ apply_action (mkNpc 50 50 50) eatProposal = mkNpc 50 50 50
  ∧ (apply_action (mkNpc 50 50 50) eatProposal).food = 50 := by
  refine ⟨by decide, by decide, by decide, by decide, by decide⟩

/-- Claim C3 amended: a catalogue entry matches the proposed action
when the names are equal or the catalogue entry's name occurs as a
contiguous substring inside the proposed name (not the other way
round); if no entry of the resolved place matches, the action is
dropped with no state change. -/
theorem match_policy_amended (cat prop : String) (npc : NPCState) (a : Action)
    (h : ∀ pl : Place, worldFind (normalizeKey a.place) = some pl →
      findPlaceAction pl.actions a.action = none) :
    (matchesProposal cat prop = true ↔ (cat = prop ∨ cat.data <:+: prop.data))
  ∧ apply_action npc a = npc := by
  constructor
  · simp [matchesProposal, strContains]
  · apply apply_action_none
    unfold matchedAction
    cases hw : worldFind (normalizeKey a.place) with
    | none => rfl
    | some pl => simp [h pl hw]

/-- Witness for C3 amended: "eating" matches the proposal "eating now"
by substring containment, and a proposal at an unknown place is
dropped with no state change. -/
theorem match_policy_amended_check :
    (matchesProposal "eating" "eating now" = true ↔
      ("eating" = "eating now" ∨ ("eating").data <:+: ("eating now").data))
  ∧ apply_action (mkNpc 50 50 50) nowhereProposal = mkNpc 50 50 50 :=
  match_policy_amended "eating" "eating now" (mkNpc 50 50 50) nowhereProposal
    (fun pl hpl => by
      have hnone : worldFind (normalizeKey nowhereProposal.place) = none := by decide
      rw [hnone] at hpl
      exact Option.noConfusion hpl)

/-- Counterexample to C5: the code's statistic divides the number of
distinct history tokens, not distinct action names — each token embeds
the hour, so the 24-token day history below, which uses exactly 4
distinct action names, scores 1, not 4/24 as the claim computes. -/
theorem diversity_counterexample :
    hist24.length = 24
  ∧ (hist24.map tokenActionName).dedup.length = 4
  ∧ specDiversity hist24 = 4 / 24
  ∧ diversity hist24 = 1
  ∧ diversity hist24 ≠ specDiversity hist24 := by
  have h1 : hist24.length = 24 := by decide
  have h2 : (hist24.map tokenActionName).dedup.length = 4 := by decide
  have h3 : hist24.dedup.length = 24 := by decide
  have hmax : max 1 hist24.length = 24 := by
    rw [h1]
    exact max_eq_right (by norm_num)
  refine ⟨h1, h2, ?_, ?_, ?_⟩
  · unfold specDiversity
    rw [h1, h2]
    norm_num
  · unfold diversity
    rw [h3, hmax]
    norm_num
  · unfold diversity specDiversity
    rw [h3, hmax, h2, h1]
    norm_num

/-- Claim C5 amended: the end-of-day statistic equals the number of
distinct history tokens divided by max(1, total tokens); since each
token embeds the hour, a day history of pairwise-distinct tokens (as a
24-hour run produces) always scores exactly 1, regardless of how many
distinct action names it used. -/
theorem diversity_token_ratio (history : List String) (h : history.Nodup)
    (hne : history ≠ []) :
    diversity history = (history.dedup.length : ℚ) / ((max 1 history.length : ℕ) : ℚ)
  ∧ diversity history = 1 := by
  have hlen : history.length ≠ 0 := by
    simpa [List.length_eq_zero] using hne
  refine ⟨rfl, ?_⟩
  unfold diversity
  rw [List.dedup_eq_self.mpr h, max_eq_right (Nat.one_le_iff_ne_zero.mpr hlen)]
  exact div_self (Nat.cast_ne_zero.mpr hlen)

/-- Witness for C5 amended at the concrete 24-token day history. -/
theorem diversity_token_ratio_check :
    diversity hist24 = (hist24.dedup.length : ℚ) / ((max 1 hist24.length : ℕ) : ℚ)
  ∧ diversity hist24 = 1 :=
  diversity_token_ratio hist24 (by decide) (by decide)

/-- Claim C8: the fallback pool is exactly the four names sleep,
eating, relax, walk; for any drawn name the substituted Action keeps
that name, has confidence 0.5, duration 1 and the generic reason, and
is placed at Home when the drawn name is sleep or relax and at Park
otherwise. -/
theorem fallback_action_shape (npc : NPCState) (drawn : String)
    (h : drawn ∈ fallback_actions) :
    fallback_actions = ["sleep", "eating", "relax", "walk"]
  ∧ drawn ∈ (["sleep", "eating", "relax", "walk"] : List String)
  ∧ (fallbackAction npc drawn).action = drawn
  ∧ (fallbackAction npc drawn).confidence = 1/2
  ∧ (fallbackAction npc drawn).duration = 1
  ∧ (fallbackAction npc drawn).reason = "Random choice"
  ∧ (drawn = "sleep" ∨ drawn = "relax" → (fallbackAction npc drawn).place = "Home")
  ∧ (drawn ≠ "sleep" → drawn ≠ "relax" → (fallbackAction npc drawn).place = "Park") := by
  refine ⟨rfl, h, rfl, rfl, rfl, rfl, ?_, ?_⟩
  · intro hd
    rcases hd with hd | hd <;> simp [fallbackAction, hd]
  · intro h1 h2
    simp [fallbackAction, h1, h2]

/-- Witness for C8 at the drawn name "walk": placed at Park with
confidence 0.5. -/
theorem fallback_action_shape_check :
    (fallbackAction (mkNpc 50 50 50) "walk").place = "Park"
  ∧ (fallbackAction (mkNpc 50 50 50) "walk").confidence = 1/2
  ∧ (fallbackAction (mkNpc 50 50 50) "walk").action = "walk" :=
  ⟨(fallback_action_shape (mkNpc 50 50 50) "walk" (by decide)).2.2.2.2.2.2.2
     (by decide) (by decide),
   (fallback_action_shape (mkNpc 50 50 50) "walk" (by decide)).2.2.2.1,
   (fallback_action_shape (mkNpc 50 50 50) "walk" (by decide)).2.2.1⟩

/-- Claim C9: the fallback draw "eating" is placed at Park, whose
catalogue holds only "walk"; "walk" matches "eating" neither by
equality nor by substring containment in either direction, so applying
this fallback leaves the NPC completely unchanged. -/
theorem fallback_eating_ineffective (npc : NPCState) :
    (fallbackAction npc "eating").place = "Park"
  ∧ worldFind (normalizeKey "Park") = some park
  ∧ park.actions.map ActionDef.name = ["walk"]
  ∧ matchesProposal "walk" "eating" = false
  ∧ strContains "walk" "eating" = false
  ∧ strContains "eating" "walk" = false
  ∧ apply_action npc (fallbackAction npc "eating") = npc := by
  refine ⟨rfl, by decide, by decide, by decide, by decide, by decide, ?_⟩
  apply apply_action_none
  rfl

/-- Claim C10: when a catalogue entry matches, apply_action changes
only the stats named in its effect map, the location (set to the
proposed place), the worked-hours counter (only for fulltime or
parttime, by the entry's duration) and the history (exactly one token
appended, so the old history is a prefix of the new); id, name,
personality and current_hour are untouched. -/
theorem apply_action_matched_frame (npc : NPCState) (a : Action) (pa : ActionDef)
    (h : matchedAction a = some pa) :
    (apply_action npc a).id = npc.id
  ∧ (apply_action npc a).name = npc.name
  ∧ (apply_action npc a).personality = npc.personality
  ∧ (apply_action npc a).current_hour = npc.current_hour
  ∧ (apply_action npc a).location = a.place
  ∧ (apply_action npc a).action_history =
      npc.action_history ++ [histToken npc.current_hour pa.name]
  ∧ npc.action_history <+: (apply_action npc a).action_history
  ∧ (∀ s : Stat, (∀ p ∈ pa.effects, p.1 ≠ s) →
      getStat (apply_action npc a) s = getStat npc s)
  ∧ (pa.name ∉ (["fulltime", "parttime"] : List String) →
      (apply_action npc a).daily_hours_worked = npc.daily_hours_worked)
  ∧ (pa.name ∈ (["fulltime", "parttime"] : List String) →
      (apply_action npc a).daily_hours_worked = npc.daily_hours_worked + pa.duration) := by
  rw [apply_action_some npc a pa h]
  refine ⟨applyMatched_id npc a pa, applyMatched_nm npc a pa,
    applyMatched_personality npc a pa, applyMatched_hour npc a pa,
    applyMatched_location npc a pa, applyMatched_history npc a pa, ?_, ?_, ?_, ?_⟩
  · rw [applyMatched_history npc a pa]
    exact List.prefix_append _ _
  · intro s hs
    have hstat : getStat (applyMatched npc a pa) s =
        getStat (applyEffects npc pa.effects) s := by
      cases s
      · exact applyMatched_money npc a pa
      · exact applyMatched_food npc a pa
      · exact applyMatched_rest npc a pa
    rw [hstat]
    exact getStat_applyEffects_not_mem pa.effects npc s hs
  · intro hw
    rw [applyMatched_worked, if_neg hw]
  · intro hw
    rw [applyMatched_worked, if_pos hw]

/-- Witness for C10: a matched sleep at Home from the standard fixture
keeps id and money, appends exactly one history token and leaves the
worked-hours counter alone. -/
theorem apply_action_matched_frame_check :
    (apply_action (mkNpc 50 50 50) sleepProposal).id = (mkNpc 50 50 50).id
  ∧ (apply_action (mkNpc 50 50 50) sleepProposal).action_history =
      (mkNpc 50 50 50).action_history ++
        [histToken (mkNpc 50 50 50).current_hour sleepDef.name]
  ∧ getStat (apply_action (mkNpc 50 50 50) sleepProposal) Stat.money =
      getStat (mkNpc 50 50 50) Stat.money
  ∧ (apply_action (mkNpc 50 50 50) sleepProposal).daily_hours_worked =
      (mkNpc 50 50 50).daily_hours_worked :=
  ⟨(apply_action_matched_frame (mkNpc 50 50 50) sleepProposal sleepDef (by decide)).1,
   (apply_action_matched_frame (mkNpc 50 50 50) sleepProposal sleepDef (by decide)).2.2.2.2.2.1,
   (apply_action_matched_frame (mkNpc 50 50 50) sleepProposal sleepDef
      (by decide)).2.2.2.2.2.2.2.1 Stat.money (by decide),
   (apply_action_matched_frame (mkNpc 50 50 50) sleepProposal sleepDef
      (by decide)).2.2.2.2.2.2.2.2.1 (by decide)⟩

end NPCSim
